import Mathlib

/-!
Verification of the photo ingestion and enrichment pipeline of the
inspectorai repository, as a shallow embedding in Lean 4.

The embedded code comes from:
  * `src/lib/exif-utils.ts` — `extractExifData`, `convertDMSToDecimal`,
    `extractDateTime`, `extractGPSCoordinates`;
  * `src/lib/weather.ts` (unnamed source part) — `getWeatherData`,
    `getLocationFromCoordinates`, `extractLocationFromDescription`;
  * `src/app/dashboard/page.tsx` — `handleSubmit`, the per-file batch loop.

Modelling conventions:
  * JavaScript numbers are modelled by `JSNum`: `NaN`, the two infinities
    and an exact rational.  JS double rounding is idealised away (exact
    rational arithmetic), the standard shallow-embedding treatment; every
    claim checked here concerns NaN-propagation, signs and exact
    sums of small decimal literals, none of which depend on rounding.
  * `parseFloat` / `parseInt` are JS builtins; they are embedded by
    `parseFloatJS` / `parseIntJS` following the ECMAScript grammar
    (longest valid prefix, `NaN` when no digits, `Infinity` literal,
    optional exponent part, hex prefix for `parseInt`).
  * `String.prototype.split` with the regex `[^\d\w\.]+` is embedded by
    `jsSplit`: pieces between maximal nonempty runs of characters outside
    the class `[0-9A-Za-z_.]`, including the empty leading/trailing pieces
    the JS method produces.
  * Thrown-and-caught exceptions are made explicit: functions whose JS
    body can throw a caught `TypeError` (calling `.split` on a non-string)
    return `Option`/`none` for the `catch`-branch result; functions whose
    thrown errors escape to the caller return `Except String`.
  * The `ExifReader.load` decoder, the network, the database and
    `Date.prototype.getTime` are external boundaries; their outcomes are
    inputs of the model (`LoadResult`, `BatchEnv`).
-/

/-- A JavaScript number: NaN, the infinities, or a finite value
(idealised as an exact rational). -/
inductive JSNum where
  | nan : JSNum
  | inf : JSNum
  | ninf : JSNum
  | fin (q : ℚ) : JSNum
deriving DecidableEq, Repr

/-- JS unary minus on numbers. -/
def JSNum.neg : JSNum → JSNum
  | .nan => .nan
  | .inf => .ninf
  | .ninf => .inf
  | .fin q => .fin (-q)

/-- JS `+` on numbers: NaN absorbs, opposite infinities give NaN. -/
def JSNum.add : JSNum → JSNum → JSNum
  | .nan, _ => .nan
  | _, .nan => .nan
  | .inf, .ninf => .nan
  | .ninf, .inf => .nan
  | .inf, _ => .inf
  | _, .inf => .inf
  | .ninf, _ => .ninf
  | _, .ninf => .ninf
  | .fin a, .fin b => .fin (a + b)

/-- JS `-` on numbers, as used for `month - 1`. -/
def JSNum.sub (a b : JSNum) : JSNum := a.add b.neg

/-- JS division by a positive finite literal (the source divides only by
`60`, `3600` and `1000`). -/
def JSNum.divPos : JSNum → ℚ → JSNum
  | .nan, _ => .nan
  | .inf, _ => .inf
  | .ninf, _ => .ninf
  | .fin a, d => .fin (a / d)

/-- JS `Math.floor`. -/
def JSNum.floorJS : JSNum → JSNum
  | .nan => .nan
  | .inf => .inf
  | .ninf => .ninf
  | .fin q => .fin ((⌊q⌋ : ℤ) : ℚ)

/-- JS truthiness of a number: `0`, `-0` and `NaN` are falsy. -/
def jsNumTruthy : JSNum → Bool
  | .nan => false
  | .inf => true
  | .ninf => true
  | .fin q => decide (q ≠ 0)

/-- Value of a list of decimal digit characters, most significant first. -/
def digitsVal (l : List Char) : ℕ :=
  l.foldl (fun a c => 10 * a + (c.toNat - 48)) 0

/-- Value of a list of hexadecimal digit characters. -/
def hexVal (l : List Char) : ℕ :=
  l.foldl (fun a c =>
    16 * a +
      (if c.isDigit then c.toNat - 48
       else if 'a' ≤ c ∧ c ≤ 'f' then c.toNat - 87
       else c.toNat - 55)) 0

/-- Hexadecimal digit test for the `parseInt` `0x` branch. -/
def isHexDigitJS (c : Char) : Bool :=
  c.isDigit || ('a' ≤ c && c ≤ 'f') || ('A' ≤ c && c ≤ 'F')

/-- ECMAScript `ExponentPart`: applied after the mantissa, the exponent is
taken only when at least one digit follows `e`/`E` (and an optional sign);
otherwise the mantissa alone is the value. -/
def applyExp (q : ℚ) (r : List Char) : ℚ :=
  match r with
  | [] => q
  | c :: rest =>
    if c = 'e' ∨ c = 'E' then
      let sr : Bool × List Char :=
        match rest with
        | '+' :: t => (false, t)
        | '-' :: t => (true, t)
        | t => (false, t)
      let ed := sr.2.takeWhile Char.isDigit
      if ed = [] then q
      else if sr.1 then q / 10 ^ digitsVal ed else q * 10 ^ digitsVal ed
    else q

/-- ECMAScript `StrUnsignedDecimalLiteral` for `parseFloat`: the literal
`Infinity`, or digits with an optional fraction and exponent; `NaN` when
no digit is found. -/
def parseUnsigned (l : List Char) : JSNum :=
  if l.take 8 = ['I', 'n', 'f', 'i', 'n', 'i', 't', 'y'] then .inf
  else
    match l.dropWhile Char.isDigit with
    | '.' :: r2 =>
      if l.takeWhile Char.isDigit = [] ∧ r2.takeWhile Char.isDigit = [] then .nan
      else
        .fin (applyExp
          ((digitsVal (l.takeWhile Char.isDigit) : ℚ) +
            (digitsVal (r2.takeWhile Char.isDigit) : ℚ) /
              10 ^ (r2.takeWhile Char.isDigit).length)
          (r2.dropWhile Char.isDigit))
    | r1 =>
      if l.takeWhile Char.isDigit = [] then .nan
      else .fin (applyExp (digitsVal (l.takeWhile Char.isDigit) : ℚ) r1)

/-- Optional sign in front of the unsigned literal. -/
def parseSigned (l : List Char) : JSNum :=
  match l with
  | [] => parseUnsigned []
  | c :: t =>
    if c = '-' then (parseUnsigned t).neg
    else if c = '+' then parseUnsigned t
    else parseUnsigned (c :: t)

/-- JS `parseFloat` over a character list: leading whitespace skipped,
then the longest prefix matching the decimal-literal grammar; `NaN` when
none matches.  `parseFloat` never throws. -/
def parseFloatL (l : List Char) : JSNum :=
  parseSigned (l.dropWhile Char.isWhitespace)

/-- JS `parseFloat` on a string. -/
def parseFloatJS (s : String) : JSNum :=
  parseFloatL s.data

/-- JS `parseFloat` applied to a possibly-undefined array element:
`undefined` is coerced to the string `"undefined"`, which parses to NaN. -/
def parseFloatOpt : Option String → JSNum
  | some s => parseFloatJS s
  | none => .nan

/-- JS `parseInt` with no radix argument: whitespace, optional sign, a
`0x`/`0X` prefix switching to hexadecimal, else decimal digits; `NaN`
when no digit is found. -/
def parseIntUnsigned (l : List Char) : JSNum :=
  if l.take 2 = ['0', 'x'] ∨ l.take 2 = ['0', 'X'] then
    let hd := (l.drop 2).takeWhile isHexDigitJS
    if hd = [] then .nan else .fin (hexVal hd : ℚ)
  else
    let d := l.takeWhile Char.isDigit
    if d = [] then .nan else .fin (digitsVal d : ℚ)

/-- JS `parseInt` over a character list. -/
def parseIntL (l : List Char) : JSNum :=
  match l.dropWhile Char.isWhitespace with
  | [] => parseIntUnsigned []
  | c :: t =>
    if c = '-' then (parseIntUnsigned t).neg
    else if c = '+' then parseIntUnsigned t
    else parseIntUnsigned (c :: t)

/-- JS `parseInt` applied to a possibly-undefined destructured element:
`parseInt(undefined)` parses the string `"undefined"` and yields NaN. -/
def parseIntOpt : Option String → JSNum
  | some s => parseIntL s.data
  | none => .nan

/-- A character of the class `[\d\w\.]` of the split regex in
`convertDMSToDecimal`: ASCII digit, ASCII letter, underscore or dot
(without the `u` flag, `\w` is ASCII-only). -/
def isTokenChar (c : Char) : Bool :=
  c.isDigit || c.isAlpha || c = '_' || c = '.'

/-- One step of `String.prototype.split(/[^\d\w\.]+/)`, consumed by a
right fold: the flag records whether the character just to the right was a
separator, so that a maximal separator run opens exactly one new piece. -/
def splitStep (c : Char) (st : Bool × List (List Char)) : Bool × List (List Char) :=
  if isTokenChar c then
    match st.2 with
    | p :: ps => (false, (c :: p) :: ps)
    | [] => (false, [[c]])
  else if st.1 then st
  else (true, [] :: st.2)

/-- JS `dms.split(/[^\d\w\.]+/)`: the pieces between maximal nonempty
runs of characters outside `[0-9A-Za-z_.]`, with the empty leading and
trailing pieces the JS method produces. -/
def jsSplit (s : String) : List String :=
  ((s.data.foldr splitStep (false, [[]])).2).map (fun l => String.mk l)

/-- `convertDMSToDecimal` from `src/lib/exif-utils.ts`.  The body splits
the string, parses three numeric tokens with `parseFloat`, and negates on
hemisphere `S` or `W`.  `none` models the `catch` branch returning
`null`; on a string argument no operation of the `try` block can throw
(`split` on a string, `parseFloat`, number arithmetic and out-of-range
array reads, which yield `undefined`, are all non-throwing), so the
result is always `some`. -/
def convertDMSToDecimal (dms : String) : Option JSNum :=
  let parts := jsSplit dms
  let degrees := parseFloatOpt (parts.get? 0)
  let minutes := parseFloatOpt (parts.get? 1)
  let seconds := parseFloatOpt (parts.get? 2)
  let direction := parts.get? 3
  let decimal := (degrees.add (minutes.divPos 60)).add (seconds.divPos 3600)
  some (if direction = some "S" ∨ direction = some "W" then decimal.neg else decimal)

/-- A tag description value as produced by the `ExifReader` decoder:
a string or a non-string value (numbers stand in for every non-string
description; the code only distinguishes the two by `typeof`). -/
inductive TagDesc where
  | str (s : String) : TagDesc
  | num (v : JSNum) : TagDesc
deriving DecidableEq, Repr

/-- `convertDMSToDecimal` as invoked on a raw description value: on a
non-string, `dms.split` is a `TypeError`, the `catch` branch runs and
`null` is returned. -/
def convertDMSToDecimalOnDesc : TagDesc → Option JSNum
  | .str s => convertDMSToDecimal s
  | .num _ => none

/-- JS truthiness of a description value: the empty string, `0` and `NaN`
are falsy. -/
def tagDescTruthy : TagDesc → Bool
  | .str s => decide (s ≠ "")
  | .num v => jsNumTruthy v

/-- `pat.isPrefixOf (l.drop i)` for some position `i`: JS
`String.prototype.includes`. -/
def hasSubstr (l pat : List Char) : Bool :=
  (List.range (l.length + 1)).any (fun i => pat.isPrefixOf (l.drop i))

/-- JS `s.includes('deg')`. -/
def hasDeg (s : String) : Bool :=
  hasSubstr s.data ['d', 'e', 'g']

/-- One decoded tag: the code reads `.description` everywhere except for
the image dimensions, which read `.value`. -/
structure ExifTag where
  description : TagDesc
  value : JSNum
deriving DecidableEq, Repr

/-- The tag names `extractExifData` looks up in the decoded tag map;
`none` is an absent key (`tags['X']` is `undefined`, falsy). -/
structure RawTags where
  dateTimeOriginal : Option ExifTag := none
  dateTime : Option ExifTag := none
  gpsLatitude : Option ExifTag := none
  gpsLongitude : Option ExifTag := none
  make : Option ExifTag := none
  model : Option ExifTag := none
  imageWidth : Option ExifTag := none
  imageHeight : Option ExifTag := none
deriving DecidableEq, Repr

/-- The `exifData.gps` object: the sexagesimal descriptions, plus the two
decimal fields which the code either leaves unassigned (`none`) or
assigns together with the result of `convertDMSToDecimal`
(`some (some v)` a number, `some none` the caught-`TypeError` `null`). -/
structure GpsFields where
  latitude : TagDesc
  longitude : TagDesc
  latitudeDecimal : Option (Option JSNum) := none
  longitudeDecimal : Option (Option JSNum) := none
deriving DecidableEq, Repr

/-- The `exifData` object `extractExifData` builds; every field is
optional because each is assigned only under its guard. -/
structure ExifData where
  dateTimeOriginal : Option TagDesc := none
  dateTime : Option TagDesc := none
  gps : Option GpsFields := none
  make : Option TagDesc := none
  model : Option TagDesc := none
  dimensions : Option (JSNum × JSNum) := none
deriving DecidableEq, Repr

/-- The GPS block of `extractExifData`: descriptions are always stored;
the decimal fields are both assigned exactly when the latitude
description is a string containing `'deg'` (the longitude format is
never inspected). -/
def buildGps (la lo : ExifTag) : GpsFields :=
  match la.description with
  | .str s =>
    if hasDeg s then
      { latitude := la.description, longitude := lo.description,
        latitudeDecimal := some (convertDMSToDecimal s),
        longitudeDecimal := some (convertDMSToDecimalOnDesc lo.description) }
    else { latitude := la.description, longitude := lo.description }
  | .num _ => { latitude := la.description, longitude := lo.description }

/-- The body of `extractExifData` after a successful decode: the
sequential `if` blocks of the source written field-wise (the blocks are
independent, each assigning its own fields of the result object). -/
def buildExif (tags : RawTags) : ExifData :=
  { dateTimeOriginal :=
      match tags.dateTimeOriginal with
      | some t => some t.description
      | none => none
    dateTime :=
      match tags.dateTimeOriginal with
      | some _ => none
      | none =>
        match tags.dateTime with
        | some t => some t.description
        | none => none
    gps :=
      match tags.gpsLatitude, tags.gpsLongitude with
      | some la, some lo => some (buildGps la lo)
      | _, _ => none
    make :=
      match tags.make with
      | some t => some t.description
      | none => none
    model :=
      match tags.model with
      | some t => some t.description
      | none => none
    dimensions :=
      match tags.imageWidth, tags.imageHeight with
      | some w, some h => some (w.value, h.value)
      | _, _ => none }

/-- Outcome of the `ExifReader.load` boundary: a decoded tag map, or a
thrown decode error (`err`). -/
inductive LoadResult where
  | ok (tags : RawTags) : LoadResult
  | err : LoadResult
deriving DecidableEq, Repr

/-- `extractExifData` from `src/lib/exif-utils.ts`: the whole body is in
a `try` whose `catch` returns `null`; only the decoder can throw (every
later step is property reads, `typeof` tests and the internally-caught
conversion), so `null` appears exactly on a decode error. -/
def extractExifData : LoadResult → Option ExifData
  | .ok tags => some (buildExif tags)
  | .err => none

/-- The six arguments the code passes to `new Date(...)` (month already
decremented); the stamp is kept symbolic, the epoch value being read only
through the `Date` boundary oracle. -/
structure DateStamp where
  year : JSNum
  month : JSNum
  day : JSNum
  hour : JSNum
  minute : JSNum
  second : JSNum
deriving DecidableEq, Repr

/-- Validity of the constructed `Date` (library boundary): with the
realistic magnitudes of EXIF date strings, the `Date` is invalid exactly
when some component is NaN, and only an invalid `Date` makes
`toISOString` throw. -/
def DateStamp.valid (d : DateStamp) : Bool :=
  match d.year, d.month, d.day, d.hour, d.minute, d.second with
  | .fin _, .fin _, .fin _, .fin _, .fin _, .fin _ => true
  | _, _, _, _, _, _ => false

/-- The date-string branch of `extractDateTime`: split on a space, then
on colons, `parseInt` each piece (`undefined` pieces parse to NaN).
When there is no second space-separated piece, `timePart` is `undefined`
and `.split` on it throws; the `catch` returns `null`. -/
def parseDateString (s : String) : Option DateStamp :=
  let parts := s.splitOn " "
  match parts.get? 1 with
  | none => none
  | some timePart =>
    let dp := (parts.getD 0 "").splitOn ":"
    let tp := timePart.splitOn ":"
    some { year := parseIntOpt (dp.get? 0)
           month := (parseIntOpt (dp.get? 1)).sub (.fin 1)
           day := parseIntOpt (dp.get? 2)
           hour := parseIntOpt (tp.get? 0)
           minute := parseIntOpt (tp.get? 1)
           second := parseIntOpt (tp.get? 2) }

/-- Parsing one description value as a date: on a non-string the
`.split` call throws and the `catch` returns `null`. -/
def descToDate : TagDesc → Option DateStamp
  | .str s => parseDateString s
  | .num _ => none

/-- The `else if (exifData.dateTime)` fallback branch of
`extractDateTime`. -/
def extractDateTimeFallback (e : ExifData) : Option DateStamp :=
  match e.dateTime with
  | some d => if tagDescTruthy d then descToDate d else none
  | none => none

/-- `extractDateTime` from `src/lib/exif-utils.ts`: prefers a truthy
`dateTimeOriginal`, else a truthy `dateTime`, else `null`. -/
def extractDateTime (e : ExifData) : Option DateStamp :=
  match e.dateTimeOriginal with
  | some d => if tagDescTruthy d then descToDate d else extractDateTimeFallback e
  | none => extractDateTimeFallback e

/-- `extractGPSCoordinates` from `src/lib/exif-utils.ts`: the pair is
returned exactly when `exifData.gps`, `gps.latitudeDecimal` and
`gps.longitudeDecimal` are all truthy; an unassigned field, a stored
`null`, `NaN` and `0` are all falsy. -/
def extractGPSCoordinates (e : ExifData) : Option (JSNum × JSNum) :=
  match e.gps with
  | none => none
  | some g =>
    match g.latitudeDecimal, g.longitudeDecimal with
    | some (some la), some (some lo) =>
      if jsNumTruthy la && jsNumTruthy lo then some (la, lo) else none
    | _, _ => none

/-- ASCII letter, as matched by `[A-Z]` under the `i` flag. -/
def isAsciiLetter (c : Char) : Bool :=
  c.isUpper || c.isLower

/-- Whether the floor pattern `(\d+)F` (with the `i` flag) matches at
position `i` of the text: a nonempty digit run starting there,
immediately followed by `F` or `f`.  Backtracking is vacuous for this
pattern: a shorter-than-maximal digit run is followed by a digit, which
is not `F`/`f`, so only the maximal run can complete the match. -/
def floorMatchAt (l : List Char) (i : ℕ) : Bool :=
  let rest := l.drop i
  !(rest.takeWhile Char.isDigit).isEmpty &&
    (match rest.dropWhile Char.isDigit with
     | f :: _ => f = 'F' || f = 'f'
     | [] => false)

/-- The regex search `description.match(/(\d+)F/i)`: the engine tries
each position left to right; the first position where the pattern
matches yields its digit run as the capture. -/
def findFloorMatch : List Char → Option (List Char)
  | [] => none
  | c :: cs =>
    if floorMatchAt (c :: cs) 0 then some ((c :: cs).takeWhile Char.isDigit)
    else findFloorMatch cs

/-- Whether the zone pattern `([A-Z])區` (with the `i` flag) matches at
position `i` of the text: an ASCII letter (either case, because of the
`i` flag) immediately followed by `區`. -/
def zoneMatchAt (l : List Char) (i : ℕ) : Bool :=
  match l.drop i with
  | c :: d :: _ => isAsciiLetter c && d = '區'
  | _ => false

/-- The regex search `description.match(/([A-Z])區/i)`: the first
position where the pattern matches; the letter is captured as written. -/
def findZoneMatch : List Char → Option Char
  | [] => none
  | c :: cs =>
    if zoneMatchAt (c :: cs) 0 then some c
    else findZoneMatch cs

/-- The result object of `extractLocationFromDescription`. -/
structure LocationHint where
  floor : Option String
  zone : Option String
  rawDescription : String
deriving DecidableEq, Repr

/-- `extractLocationFromDescription` from the weather/location module:
two regex matches, `null` fields on no match, the input echoed back
unchanged. -/
def extractLocationFromDescription (description : String) : LocationHint :=
  { floor := (findFloorMatch description.data).map (fun l => String.mk l)
    zone := (findZoneMatch description.data).map (fun c => String.mk [c])
    rawDescription := description }

/-- Leftmost-match specification of the floor capture: the digit run at
the least position where the pattern matches, stated over an explicit
search of every position.  The amended claim C8 is stated against this
reformulation. -/
def floorSpec (s : String) : Option String :=
  ((List.range s.data.length).find? (fun i => floorMatchAt s.data i)).map
    (fun i => String.mk ((s.data.drop i).takeWhile Char.isDigit))

/-- Leftmost-match specification of the zone capture: the letter at the
least position where the pattern matches, captured as written. -/
def zoneSpec (s : String) : Option String :=
  ((List.range s.data.length).find? (fun i => zoneMatchAt s.data i)).map
    (fun i =>
      match s.data.drop i with
      | c :: _ => String.mk [c]
      | [] => "")

/-- An opaque weather-provider payload. -/
structure WeatherData where
  raw : String
deriving DecidableEq, Repr

/-- An opaque single geocoding result. -/
structure GeoResult where
  raw : String
deriving DecidableEq, Repr

/-- Outcome of the weather HTTP call: a payload, or a network/provider
error (the axios promise rejecting). -/
inductive WeatherOutcome where
  | ok (data : WeatherData) : WeatherOutcome
  | netfail : WeatherOutcome

/-- Outcome of the geocoding HTTP call: a response with a `status` string
and a `results` list, or a network/provider error. -/
inductive GeoOutcome where
  | ok (status : String) (results : List GeoResult) : GeoOutcome
  | netfail : GeoOutcome

/-- The two provider credentials, read from the environment into
module-level constants; `true` means the variable is set. -/
structure ApiConfig where
  openWeatherKey : Bool
  googleMapsKey : Bool

/-- `getWeatherData` from the weather module: a missing credential throws
at call time (the throw is outside the `try`, so it escapes to the
caller); a network/provider error is caught and becomes `null`. -/
def getWeatherData (cfg : ApiConfig) (lat lon dt : JSNum) (net : WeatherOutcome) :
    Except String (Option WeatherData) :=
  if !cfg.openWeatherKey then .error "Missing OpenWeather API key"
  else
    match net with
    | .ok d => .ok (some d)
    | .netfail => .ok none

/-- `getLocationFromCoordinates` from the weather module: a missing
credential throws at call time; on a response, the first result is
returned when `status === 'OK'` and the list is nonempty, else `null`;
a network error is caught and becomes `null`. -/
def getLocationFromCoordinates (cfg : ApiConfig) (lat lon : JSNum) (net : GeoOutcome) :
    Except String (Option GeoResult) :=
  if !cfg.googleMapsKey then .error "Missing Google Maps API key"
  else
    match net with
    | .ok status results =>
      if status = "OK" then
        match results with
        | r :: _ => .ok (some r)
        | [] => .ok none
      else .ok none
    | .netfail => .ok none

/-- One file of the upload batch: its name and what the EXIF decoder does
on its bytes. -/
structure UploadFile where
  name : String
  load : LoadResult

/-- The external world of one `handleSubmit` run: credentials, the
network outcome of each per-file provider call, the per-file outcome of
the storage upload and of the database insert (`some msg` is the error
branch with message `msg`), `Date.now()` per file, and the
`Date.prototype.getTime` oracle for valid dates. -/
structure BatchEnv where
  cfg : ApiConfig
  weatherNet : ℕ → WeatherOutcome
  geoNet : ℕ → GeoOutcome
  uploadErr : ℕ → Option String
  insertErr : ℕ → Option String
  nowMillis : ℕ → ℕ
  dateGetTime : DateStamp → ℚ

/-- `Date.prototype.getTime` through the boundary oracle: NaN for an
invalid date. -/
def dateGetTimeJS (env : BatchEnv) (ds : DateStamp) : JSNum :=
  if ds.valid then .fin (env.dateGetTime ds) else .nan

/-- The row inserted into the `photos` table (the `taken_at` ISO string
is represented by the stamp it renders). -/
structure PhotoRecord where
  project_id : String
  uploaded_by : Option String
  storage_path : String
  description : String
  location_description : String
  exif_data : Option ExifData
  weather_data : Option WeatherData
  geo_data : Option GeoResult
  taken_at : Option DateStamp
  ai_processed : Bool
  ai_processing_status : String
deriving DecidableEq, Repr

/-- What a `handleSubmit` run leaves behind: the rows inserted, in
insertion order, and the message of the error that ended the run, if
any. -/
structure BatchResult where
  persisted : List PhotoRecord
  error : Option String
deriving DecidableEq, Repr

/-- `file.name.split('.').pop()`. -/
def fileExtOf (name : String) : String :=
  ((name.splitOn ".").getLast?).getD ""

/-- The enrichment block of the loop body: when GPS coordinates were
recovered, the weather call (only when a date was also recovered,
with `Math.floor(dateTime.getTime() / 1000)` as the timestamp) and then
the geocoding call; a throw from either escapes to the batch handler. -/
def enrichFile (env : BatchEnv) (i : ℕ) (gps : Option (JSNum × JSNum))
    (dateTime : Option DateStamp) :
    Except String (Option WeatherData × Option GeoResult) :=
  match gps with
  | none => .ok (none, none)
  | some (lat, lon) =>
    let wres : Except String (Option WeatherData) :=
      match dateTime with
      | some ds =>
        getWeatherData env.cfg lat lon ((dateGetTimeJS env ds).divPos 1000).floorJS
          (env.weatherNet i)
      | none => .ok none
    match wres with
    | .error m => .error m
    | .ok w =>
      match getLocationFromCoordinates env.cfg lat lon (env.geoNet i) with
      | .error m => .error m
      | .ok g => .ok (w, g)

/-- The body of the `for` loop of `handleSubmit` for the file at index
`i`: extract EXIF, derive date and coordinates, parse the location
description (result discarded by the source), enrich, upload to storage
(an upload error throws with the prefixed message), render `taken_at`
(an invalid date makes `toISOString` throw), insert the row (an insert
error throws with the prefixed message). -/
def processFile (env : BatchEnv) (uid : Option String)
    (projectId locationDescription description : String)
    (i : ℕ) (f : UploadFile) : Except String PhotoRecord :=
  let exifData := extractExifData f.load
  let dateTime :=
    match exifData with
    | some e => extractDateTime e
    | none => none
  let gpsCoordinates :=
    match exifData with
    | some e => extractGPSCoordinates e
    | none => none
  let _hint := extractLocationFromDescription locationDescription
  match enrichFile env i gpsCoordinates dateTime with
  | .error m => .error m
  | .ok (weatherData, geoData) =>
    match env.uploadErr i with
    | some m => .error ("Error uploading file: " ++ m)
    | none =>
      let takenAtE : Except String (Option DateStamp) :=
        match dateTime with
        | some ds => if ds.valid then .ok (some ds) else .error "Invalid time value"
        | none => .ok none
      match takenAtE with
      | .error m => .error m
      | .ok takenAt =>
        match env.insertErr i with
        | some m => .error ("Error saving photo data: " ++ m)
        | none =>
          .ok { project_id := projectId
                uploaded_by := uid
                storage_path :=
                  projectId ++ "/" ++ toString (env.nowMillis i) ++ "-" ++
                    toString i ++ "." ++ fileExtOf f.name
                description := description
                location_description := locationDescription
                exif_data := exifData
                weather_data := weatherData
                geo_data := geoData
                taken_at := takenAt
                ai_processed := false
                ai_processing_status := "pending" }

/-- The `for` loop of `handleSubmit` with the surrounding `try`/`catch`:
files strictly in order, stopping at the first thrown error, whose
message is surfaced; rows inserted before the error stay. -/
def runFiles (env : BatchEnv) (uid : Option String)
    (projectId locationDescription description : String) :
    ℕ → List UploadFile → List PhotoRecord → BatchResult
  | _, [], acc => ⟨acc.reverse, none⟩
  | i, f :: rest, acc =>
    match processFile env uid projectId locationDescription description i f with
    | .ok r => runFiles env uid projectId locationDescription description (i + 1) rest (r :: acc)
    | .error m => ⟨acc.reverse, some m⟩

/-- `handleSubmit` from `src/app/dashboard/page.tsx`: the empty-selection
and missing-project guards, then the sequential per-file loop. -/
def handleSubmit (env : BatchEnv) (uid : Option String) (files : List UploadFile)
    (projectId locationDescription description : String) : BatchResult :=
  if files.isEmpty then ⟨[], some "Please select at least one photo to upload"⟩
  else if projectId = "" then ⟨[], some "Please select a project"⟩
  else runFiles env uid projectId locationDescription description 0 files []

/-- Fixture for C7: a latitude description containing `'deg'` without
being a degrees-minutes-seconds string, and a longitude with no numeric
content at all. -/
def c7tags : RawTags :=
  { gpsLatitude := some ⟨.str "xdeg", .fin 0⟩,
    gpsLongitude := some ⟨.str "foo", .fin 0⟩ }

/-- Fixture for C10: a well-formed latitude next to a non-string
longitude description, on which the conversion's `catch` yields `null`. -/
def c10tags : RawTags :=
  { gpsLatitude := some ⟨.str "51deg 30' 35.66\" N", .fin 0⟩,
    gpsLongitude := some ⟨.num (.fin 5), .fin 0⟩ }

/-- Fixture for C9: decoded decimal latitude exactly `0` (a point on the
equator), longitude nonzero. -/
def zeroLatExif : ExifData :=
  { gps := some ⟨.str "0deg 0' 0\" N", .str "10deg 0' 0\" E",
      some (some (.fin 0)), some (some (.fin 10))⟩ }

/-- A decoded tag set with a date and well-formed GPS strings, used by
the batch witnesses. -/
def sampleTags : RawTags :=
  { dateTimeOriginal := some ⟨.str "2024:03:15 10:30:00", .fin 0⟩,
    gpsLatitude := some ⟨.str "51deg 30' 35.66\" N", .fin 0⟩,
    gpsLongitude := some ⟨.str "0deg 7' 39\" W", .fin 0⟩ }

/-- A file whose bytes decode to `sampleTags`. -/
def sampleFile : UploadFile := ⟨"pic.jpg", .ok sampleTags⟩

/-- The date stamp extracted from `sampleTags` (March is month index 2). -/
def sampleStamp : DateStamp :=
  ⟨.fin 2024, .fin 2, .fin 15, .fin 10, .fin 30, .fin 0⟩

/-- A file on which the EXIF decoder throws. -/
def plainFile : UploadFile := ⟨"a.jpg", .err⟩

/-- A batch environment where both credentials are set, every provider
call fails on the network, and storage and database always succeed. -/
def envHappy : BatchEnv :=
  { cfg := ⟨true, true⟩
    weatherNet := fun _ => .netfail
    geoNet := fun _ => .netfail
    uploadErr := fun _ => none
    insertErr := fun _ => none
    nowMillis := fun _ => 0
    dateGetTime := fun _ => 1710498600 }

/-- `envHappy` with the storage upload of the second file (index 1)
failing. -/
def envUploadFail1 : BatchEnv :=
  { envHappy with uploadErr := fun j => if j = 1 then some "bucket unavailable" else none }

/-- `envHappy` with the weather credential absent. -/
def envNoWeatherKey : BatchEnv :=
  { envHappy with cfg := ⟨false, true⟩ }

/-- The row `processFile` inserts for `plainFile` at index 0 under
`envUploadFail1`. -/
def c2rec0 : PhotoRecord :=
  { project_id := "p1"
    uploaded_by := some "u1"
    storage_path := "p1/0-0.jpg"
    description := "d"
    location_description := "4F B區"
    exif_data := none
    weather_data := none
    geo_data := none
    taken_at := none
    ai_processed := false
    ai_processing_status := "pending" }

/-- Claim C1.  The claim says every malformed sexagesimal string makes
`convertDMSToDecimal` return `null` and never NaN.  The code never
throws on a string — but `parseFloat` signals failure by NaN, not by
throwing, so the `catch`-and-return-`null` guard is dead and the NaN
propagates out: on `"51deg 30' N"` (missing seconds token) and on
`"abc def"` (non-numeric tokens) the function returns NaN, not `null`.
The `try/catch` and the declared `number | null` return type show the
intent the spec states, so this is a bug in the code. -/
theorem C1_malformed_yields_nan_not_null :
    convertDMSToDecimal "51deg 30' N" = some JSNum.nan ∧
    convertDMSToDecimal "abc def" = some JSNum.nan := by
  exact ⟨rfl, rfl⟩

/-- Claim C6, counterexample.  The claim says `extractExifData` returns
`null` when no relevant tags exist; on a successfully decoded tag map
with none of the relevant tags the code returns the (truthy) empty
object `{}`, not `null`. -/
theorem C6_counterexample_no_tags_gives_empty_object :
    extractExifData (.ok {}) = some ({} : ExifData) := by
  rfl

/-- Claim C6, amended: `extractExifData` returns `null` exactly when
decoding the tag block throws (it never raises); when decoding succeeds
but no relevant tag exists it returns an empty metadata object with all
fields absent. -/
theorem C6_amended_null_iff_decode_error :
    ∀ lr : LoadResult,
      (extractExifData lr = none ↔ lr = .err) ∧
      extractExifData (.ok {}) = some ({} : ExifData) := by
  intro lr
  refine ⟨?_, rfl⟩
  cases lr <;> simp [extractExifData]

/-- Witness for C6: the amended theorem applied to a decode error. -/
theorem C6_witness : extractExifData .err = none :=
  (C6_amended_null_iff_decode_error .err).1.mpr rfl

/-- Claim C7, counterexample.  The claim says decimal GPS fields are
present only if the sexagesimal string matched the
`deg … ' … " hemisphere` pattern, and that on conversion failure the
descriptions are retained *without* decimal fields.  With latitude
description `"xdeg"` — which contains no digits, so matches the pattern
under no reading — both decimal fields are nevertheless assigned, and
the failed conversions leave NaN in them rather than absence. -/
theorem C7_counterexample_decimal_present_without_pattern :
    (buildExif c7tags).gps =
      some ⟨.str "xdeg", .str "foo", some (some .nan), some (some .nan)⟩ := by
  rfl

/-- Claim C7, amended: in every `NormalizedExif`, the decimal GPS fields
are present exactly when both GPS tags exist and the latitude
description is a string containing the substring `'deg'`; the two
decimal fields are assigned together or not at all; the sexagesimal
descriptions are always retained; on conversion failure the decimal
fields are still present (holding NaN, or `null` for a non-string
longitude) rather than absent. -/
theorem C7_amended_decimal_presence_condition :
    ∀ (tags : RawTags) (la lo : ExifTag),
      tags.gpsLatitude = some la → tags.gpsLongitude = some lo →
      ∃ g, (buildExif tags).gps = some g ∧
        g.latitude = la.description ∧ g.longitude = lo.description ∧
        ((g.latitudeDecimal ≠ none) ↔ ∃ s, la.description = TagDesc.str s ∧ hasDeg s = true) ∧
        (g.latitudeDecimal = none ↔ g.longitudeDecimal = none) := by
  intro tags la lo hla hlo
  refine ⟨buildGps la lo, by simp [buildExif, hla, hlo], ?_⟩
  obtain ⟨lad, lav⟩ := la
  cases lad with
  | str s =>
    by_cases h : hasDeg s = true
    · simp [buildGps, h]
    · simp [buildGps, h]
  | num v =>
    simp [buildGps]

/-- Witness for C7's amended theorem at the `c7tags` fixture. -/
theorem C7_witness :
    ∃ g, (buildExif c7tags).gps = some g ∧
      g.latitude = TagDesc.str "xdeg" ∧ g.longitude = TagDesc.str "foo" ∧
      ((g.latitudeDecimal ≠ none) ↔
        ∃ s, TagDesc.str "xdeg" = TagDesc.str s ∧ hasDeg s = true) ∧
      (g.latitudeDecimal = none ↔ g.longitudeDecimal = none) :=
  C7_amended_decimal_presence_condition c7tags ⟨.str "xdeg", .fin 0⟩ ⟨.str "foo", .fin 0⟩ rfl rfl

/-- Claim C9.  `extractGPSCoordinates` returns a pair exactly when both
decimal GPS fields hold truthy numbers (the `gps` object existing and
holding assigned, non-`null`, non-zero, non-NaN values); consequently a
decoded decimal latitude or longitude equal to exactly `0` makes it
return `null`, treating the coordinate as absent. -/
theorem C9_pair_iff_truthy_and_zero_dropped :
    ∀ e : ExifData,
      ((extractGPSCoordinates e).isSome ↔
        ∃ g la lo, e.gps = some g ∧ g.latitudeDecimal = some (some la) ∧
          g.longitudeDecimal = some (some lo) ∧
          jsNumTruthy la = true ∧ jsNumTruthy lo = true) ∧
      (∀ g, e.gps = some g →
        (g.latitudeDecimal = some (some (JSNum.fin 0)) ∨
          g.longitudeDecimal = some (some (JSNum.fin 0))) →
        extractGPSCoordinates e = none) := by
  intro e
  constructor
  · cases hg : e.gps with
    | none => simp [extractGPSCoordinates, hg]
    | some g =>
      obtain ⟨glat, glon, gld, glnd⟩ := g
      rcases gld with _ | ld
      · simp [extractGPSCoordinates, hg]
      · rcases ld with _ | la
        · simp [extractGPSCoordinates, hg]
        · rcases glnd with _ | lnd
          · simp [extractGPSCoordinates, hg]
          · rcases lnd with _ | lo
            · simp [extractGPSCoordinates, hg]
            · by_cases hla : jsNumTruthy la = true
              · by_cases hlo : jsNumTruthy lo = true
                · simp [extractGPSCoordinates, hg, hla, hlo]
                · simp [extractGPSCoordinates, hg, hla, hlo]
              · simp [extractGPSCoordinates, hg, hla]
  · intro g hg h0
    obtain ⟨glat, glon, gld, glnd⟩ := g
    rcases h0 with h0 | h0 <;> simp only at h0 <;> subst h0
    · rcases glnd with _ | lnd
      · simp [extractGPSCoordinates, hg]
      · rcases lnd with _ | lo
        · simp [extractGPSCoordinates, hg]
        · simp [extractGPSCoordinates, hg, jsNumTruthy]
    · rcases gld with _ | ld
      · simp [extractGPSCoordinates, hg]
      · rcases ld with _ | la
        · simp [extractGPSCoordinates, hg]
        · simp [extractGPSCoordinates, hg, jsNumTruthy]

/-- Witness for C9: a decoded decimal latitude of exactly `0` (equator)
is treated as absent. -/
theorem C9_witness : extractGPSCoordinates zeroLatExif = none :=
  (C9_pair_iff_truthy_and_zero_dropped zeroLatExif).2 _ rfl (Or.inl rfl)

/-- Claim C10.  Whenever both GPS tags exist and the latitude
description is a string containing `'deg'`, both decimal fields are
assigned, each holding exactly what `convertDMSToDecimal` returned for
its own description — the longitude's format is never checked, and on
the `c10tags` fixture (non-string longitude description) the assigned
value is the caught-`TypeError` `null`, so a decimal field is present
with a `null` value. -/
theorem C10_decimal_fields_assigned_unconditionally :
    (∀ (tags : RawTags) (la lo : ExifTag) (s : String),
      tags.gpsLatitude = some la → tags.gpsLongitude = some lo →
      la.description = .str s → hasDeg s = true →
      ∃ g, (buildExif tags).gps = some g ∧
        g.latitudeDecimal = some (convertDMSToDecimal s) ∧
        g.longitudeDecimal = some (convertDMSToDecimalOnDesc lo.description)) ∧
    ∃ g, (buildExif c10tags).gps = some g ∧ g.longitudeDecimal = some none := by
  constructor
  · intro tags la lo s hla hlo hdesc hdeg
    refine ⟨buildGps la lo, by simp [buildExif, hla, hlo], ?_, ?_⟩ <;>
      simp [buildGps, hdesc, hdeg]
  · exact ⟨_, rfl, rfl⟩

/-- Witness for C10 at the `c10tags` fixture. -/
theorem C10_witness :
    ∃ g, (buildExif c10tags).gps = some g ∧
      g.latitudeDecimal = some (convertDMSToDecimal "51deg 30' 35.66\" N") ∧
      g.longitudeDecimal = some (convertDMSToDecimalOnDesc (.num (.fin 5))) :=
  C10_decimal_fields_assigned_unconditionally.1 c10tags
    ⟨.str "51deg 30' 35.66\" N", .fin 0⟩ ⟨.num (.fin 5), .fin 0⟩
    "51deg 30' 35.66\" N" rfl rfl rfl (by rfl)

/-- The recursive left-to-right scan for the floor capture agrees with
the leftmost-match specification over all positions. -/
theorem findFloorMatch_eq_spec (l : List Char) :
    findFloorMatch l =
      ((List.range l.length).find? (fun i => floorMatchAt l i)).map
        (fun i => (l.drop i).takeWhile Char.isDigit) := by
  induction l with
  | nil => rfl
  | cons c cs ih =>
    rw [List.length_cons, List.range_succ_eq_map]
    cases h0 : floorMatchAt (c :: cs) 0 with
    | true =>
      rw [List.find?_cons_of_pos _ h0]
      simp [findFloorMatch, h0]
    | false =>
      rw [List.find?_cons_of_neg _ (by simp [h0]), List.find?_map]
      have hcomp : ((fun i => floorMatchAt (c :: cs) i) ∘ Nat.succ) =
          fun i => floorMatchAt cs i := by
        funext i
        simp [floorMatchAt, List.drop_succ_cons]
      rw [hcomp]
      have hl : findFloorMatch (c :: cs) = findFloorMatch cs := by
        simp [findFloorMatch, h0]
      rw [hl, ih]
      cases hf : (List.range cs.length).find? (fun i => floorMatchAt cs i) <;>
        simp [hf, List.drop_succ_cons]

/-- The recursive left-to-right scan for the zone capture agrees with
the leftmost-match specification over all positions. -/
theorem findZoneMatch_eq_spec (l : List Char) :
    findZoneMatch l =
      ((List.range l.length).find? (fun i => zoneMatchAt l i)).map
        (fun i =>
          match l.drop i with
          | c :: _ => c
          | [] => ' ') := by
  induction l with
  | nil => rfl
  | cons c cs ih =>
    rw [List.length_cons, List.range_succ_eq_map]
    cases h0 : zoneMatchAt (c :: cs) 0 with
    | true =>
      rw [List.find?_cons_of_pos _ h0]
      simp [findZoneMatch, h0]
    | false =>
      rw [List.find?_cons_of_neg _ (by simp [h0]), List.find?_map]
      have hcomp : ((fun i => zoneMatchAt (c :: cs) i) ∘ Nat.succ) =
          fun i => zoneMatchAt cs i := by
        funext i
        simp [zoneMatchAt, List.drop_succ_cons]
      rw [hcomp]
      have hl : findZoneMatch (c :: cs) = findZoneMatch cs := by
        simp [findZoneMatch, h0]
      rw [hl, ih]
      cases hf : (List.range cs.length).find? (fun i => zoneMatchAt cs i) <;>
        simp [hf, List.drop_succ_cons]

/-- Claim C8, counterexample.  The claim says the zone is a single
*uppercase* letter immediately followed by `區`, and that a field with
no match is `null`; but the zone regex carries the `i` flag, so on
`"b區"` — where no uppercase letter precedes `區` and the claim thus
requires `zone = null` — the code matches the lowercase letter and
returns it as written. -/
theorem C8_counterexample_lowercase_zone :
    extractLocationFromDescription "b區" = ⟨none, some "b", "b區"⟩ := by
  rfl

/-- Claim C8, amended: the parser returns its `rawDescription`
unchanged, extracts the leftmost integer run immediately followed by
`F`/`f` as `floor`, and the leftmost single ASCII letter — of either
case, matched case-insensitively and captured as written — immediately
followed by `區` as `zone`; a field with no match is `null`, never an
error; `parse("4F B區")` and `parse("no pattern here")` behave as the
claim states. -/
theorem C8_amended_parser_behaviour :
    ∀ s : String,
      (extractLocationFromDescription s).rawDescription = s ∧
      (extractLocationFromDescription s).floor = floorSpec s ∧
      (extractLocationFromDescription s).zone = zoneSpec s ∧
      extractLocationFromDescription "4F B區" = ⟨some "4", some "B", "4F B區"⟩ ∧
      extractLocationFromDescription "no pattern here" =
        ⟨none, none, "no pattern here"⟩ := by
  intro s
  refine ⟨rfl, ?_, ?_, by rfl, by rfl⟩
  · show (findFloorMatch s.data).map (fun l => String.mk l) = floorSpec s
    rw [findFloorMatch_eq_spec, floorSpec, Option.map_map]
    rfl
  · show (findZoneMatch s.data).map (fun c => String.mk [c]) = zoneSpec s
    rw [findZoneMatch_eq_spec, zoneSpec, Option.map_map]
    cases hf : (List.range s.data.length).find? (fun i => zoneMatchAt s.data i) with
    | none => rfl
    | some i =>
      have hi : zoneMatchAt s.data i = true := List.find?_some hf
      unfold zoneMatchAt at hi
      cases hd : s.data.drop i with
      | nil => exact absurd (hd ▸ hi) (by simp)
      | cons a t =>
        cases t with
        | nil => exact absurd (hd ▸ hi) (by simp)
        | cons b t' => simp [hd]

/-- Witness for C8's amended theorem at the claim's own example. -/
theorem C8_witness :
    (extractLocationFromDescription "4F B區").rawDescription = "4F B區" ∧
    (extractLocationFromDescription "4F B區").floor = floorSpec "4F B區" ∧
    (extractLocationFromDescription "4F B區").zone = zoneSpec "4F B區" ∧
    extractLocationFromDescription "4F B區" = ⟨some "4", some "B", "4F B區"⟩ ∧
    extractLocationFromDescription "no pattern here" =
      ⟨none, none, "no pattern here"⟩ :=
  C8_amended_parser_behaviour "4F B區"

/-- Claim C4, counterexample.  The claim says a call to the weather
fetcher never fails at call time because of a missing credential
(absence being a startup error instead, with the pipeline proceeding on
`null`).  But the key is only read into a module constant — nothing
validates it at startup — and `getWeatherData` checks it inside the
call, before and outside its `try`, throwing right there. -/
theorem C4_counterexample_missing_key_fails_at_call_time :
    getWeatherData ⟨false, true⟩ (.fin 0) (.fin 0) (.fin 0) (.ok ⟨"sunny"⟩) =
      .error "Missing OpenWeather API key" := by
  rfl

/-- Claim C4, amended: a missing provider credential is not detected at
process start; each enrichment call checks its key at call time and
throws (`Missing OpenWeather API key` / `Missing Google Maps API key`),
and inside the ingestion loop such a throw aborts the current file
(escaping to the batch handler) instead of degrading to `null`
enrichment. -/
theorem C4_amended_missing_key_throws_per_call :
    ∀ (cfgW cfgG : ApiConfig) (lat lon ts : JSNum) (wnet : WeatherOutcome)
      (gnet : GeoOutcome) (env : BatchEnv) (uid : Option String)
      (pid ld desc : String) (i : ℕ) (f : UploadFile) (e : ExifData)
      (gc : JSNum × JSNum) (ds : DateStamp),
      (cfgW.openWeatherKey = false →
        getWeatherData cfgW lat lon ts wnet = .error "Missing OpenWeather API key") ∧
      (cfgG.googleMapsKey = false →
        getLocationFromCoordinates cfgG lat lon gnet =
          .error "Missing Google Maps API key") ∧
      (env.cfg.openWeatherKey = false →
        extractExifData f.load = some e →
        extractGPSCoordinates e = some gc →
        extractDateTime e = some ds →
        processFile env uid pid ld desc i f = .error "Missing OpenWeather API key") := by
  intro cfgW cfgG lat lon ts wnet gnet env uid pid ld desc i f e gc ds
  refine ⟨?_, ?_, ?_⟩
  · intro h
    simp [getWeatherData, h]
  · intro h
    simp [getLocationFromCoordinates, h]
  · intro hkey hex hgps hdt
    obtain ⟨glat, glon⟩ := gc
    simp [processFile, hex, hgps, hdt, enrichFile, getWeatherData, hkey]

/-- Witness for C4's amended theorem: both fetchers with the concrete
missing-key configurations, and the batch loop on a file with full GPS
metadata under `envNoWeatherKey`. -/
theorem C4_witness :
    (getWeatherData ⟨false, true⟩ (.fin 1) (.fin 2) (.fin 3) (.ok ⟨"w"⟩) =
      .error "Missing OpenWeather API key") ∧
    (getLocationFromCoordinates ⟨true, false⟩ (.fin 1) (.fin 2) (.ok "OK" []) =
      .error "Missing Google Maps API key") ∧
    processFile envNoWeatherKey (some "u1") "p1" "loc" "d" 0 sampleFile =
      .error "Missing OpenWeather API key" := by
  have h := C4_amended_missing_key_throws_per_call ⟨false, true⟩ ⟨true, false⟩
    (.fin 1) (.fin 2) (.fin 3) (.ok ⟨"w"⟩) (.ok "OK" []) envNoWeatherKey
    (some "u1") "p1" "loc" "d" 0 sampleFile (buildExif sampleTags)
    (.fin (9271783 / 180000), .fin (-51 / 400)) sampleStamp
  exact ⟨h.1 rfl, h.2.1 rfl,
    h.2.2 rfl rfl (by with_unfolding_all rfl) (by with_unfolding_all rfl)⟩

/-- Claim C3.  With both credentials configured, a network or provider
error during the weather and geocoding lookups yields `null` for those
enrichment fields and does not abort ingestion of the current file: the
row is still produced, with `weather_data` and `geo_data` `null` and
`ai_processing_status` set to `'pending'`. -/
theorem C3_enrichment_failure_degrades_to_null :
    ∀ (env : BatchEnv) (uid : Option String) (pid ld desc : String) (i : ℕ)
      (f : UploadFile) (e : ExifData) (gc : JSNum × JSNum) (ds : DateStamp),
      env.cfg.openWeatherKey = true →
      env.cfg.googleMapsKey = true →
      extractExifData f.load = some e →
      extractGPSCoordinates e = some gc →
      extractDateTime e = some ds →
      ds.valid = true →
      env.weatherNet i = .netfail →
      env.geoNet i = .netfail →
      env.uploadErr i = none →
      env.insertErr i = none →
      ∃ r, processFile env uid pid ld desc i f = .ok r ∧
        r.weather_data = none ∧ r.geo_data = none ∧
        r.ai_processing_status = "pending" ∧ r.taken_at = some ds := by
  intro env uid pid ld desc i f e gc ds hkw hkg hex hgps hdt hval hw hg hup hins
  obtain ⟨glat, glon⟩ := gc
  refine ⟨{ project_id := pid, uploaded_by := uid,
            storage_path := pid ++ "/" ++ toString (env.nowMillis i) ++ "-" ++
              toString i ++ "." ++ fileExtOf f.name,
            description := desc, location_description := ld,
            exif_data := some e, weather_data := none, geo_data := none,
            taken_at := some ds, ai_processed := false,
            ai_processing_status := "pending" }, ?_, rfl, rfl, rfl, rfl⟩
  simp [processFile, hex, hgps, hdt, hval, enrichFile, getWeatherData,
    getLocationFromCoordinates, hkw, hkg, hw, hg, hup, hins]

/-- Witness for C3: the sample file under `envHappy`, whose provider
calls fail on the network. -/
theorem C3_witness :
    ∃ r, processFile envHappy (some "u1") "p1" "loc" "d" 0 sampleFile = .ok r ∧
      r.weather_data = none ∧ r.geo_data = none ∧
      r.ai_processing_status = "pending" ∧ r.taken_at = some sampleStamp :=
  C3_enrichment_failure_degrades_to_null envHappy (some "u1") "p1" "loc" "d" 0
    sampleFile (buildExif sampleTags)
    (.fin (9271783 / 180000), .fin (-51 / 400)) sampleStamp
    rfl rfl rfl (by with_unfolding_all rfl) (by with_unfolding_all rfl)
    (by with_unfolding_all rfl) rfl rfl rfl rfl

/-- The batch loop from position `k` of the file list: if every file
strictly before relative position `n` succeeds and the file at `n`
throws, the loop stops there, keeping exactly the earlier rows in order
and surfacing the thrown message. -/
theorem runFiles_stop (env : BatchEnv) (uid : Option String) (pid ld desc : String)
    (rs : ℕ → PhotoRecord) :
    ∀ (n : ℕ) (fs : List UploadFile) (k : ℕ) (acc : List PhotoRecord)
      (fi : UploadFile) (em : String),
      fs.get? n = some fi →
      (∀ j, j < n → ∃ fj, fs.get? j = some fj ∧
        processFile env uid pid ld desc (k + j) fj = .ok (rs (k + j))) →
      processFile env uid pid ld desc (k + n) fi = .error em →
      runFiles env uid pid ld desc k fs acc =
        ⟨acc.reverse ++ (List.range n).map (fun j => rs (k + j)), some em⟩ := by
  intro n
  induction n with
  | zero =>
    intro fs k acc fi em hget _ herr
    cases fs with
    | nil => simp at hget
    | cons f0 rest =>
      have hf : f0 = fi := by simpa using hget
      subst hf
      simp only [Nat.add_zero] at herr
      rw [runFiles, herr]
      simp
  | succ n ih =>
    intro fs k acc fi em hget hpre herr
    cases fs with
    | nil => simp at hget
    | cons f0 rest =>
      obtain ⟨fj, hfj, hok⟩ := hpre 0 (Nat.succ_pos n)
      have hf0 : f0 = fj := by simpa using hfj
      subst hf0
      simp only [Nat.add_zero] at hok
      rw [runFiles, hok]
      have hrest := ih rest (k + 1) (rs k :: acc) fi em
        (by simpa using hget)
        (by
          intro j hj
          obtain ⟨fj, hfj, hokj⟩ := hpre (j + 1) (Nat.succ_lt_succ hj)
          exact ⟨fj, by simpa using hfj, by
            have : k + 1 + j = k + (j + 1) := by omega
            rw [this]
            exact hokj⟩)
        (by
          have : k + 1 + n = k + (n + 1) := by omega
          rw [this]
          exact herr)
      show runFiles env uid pid ld desc (k + 1) rest (rs k :: acc) = _
      have hmap : List.map (fun j => rs (k + 1 + j)) (List.range n) =
          List.map (fun j => rs (k + (j + 1))) (List.range n) := by
        apply List.map_congr_left
        intro j _
        have hkj : k + 1 + j = k + (j + 1) := by omega
        rw [hkj]
      have hrange : List.map (fun j => rs (k + j)) (List.range (n + 1)) =
          rs k :: List.map (fun j => rs (k + (j + 1))) (List.range n) := by
        rw [List.range_succ_eq_map, List.map_cons, List.map_map]
        show rs (k + 0) :: List.map ((fun j => rs (k + j)) ∘ Nat.succ) (List.range n) = _
        rw [Nat.add_zero]
        rfl
      rw [hrest, List.reverse_cons, List.append_assoc, hmap, hrange,
        List.singleton_append]

/-- Claim C2.  In a batch, if every file before index `i` succeeded and
the processing of file `i` throws — as a storage-upload or
database-insert failure does —, then the loop stops at `i`: no later
file is attempted, exactly the rows of the earlier files remain
committed (no rollback), and the thrown message (which embeds the
underlying storage or database error message) is surfaced to the
caller. -/
theorem C2_batch_aborts_at_failure :
    ∀ (env : BatchEnv) (uid : Option String) (files : List UploadFile)
      (pid ld desc : String) (i : ℕ) (fi : UploadFile) (em : String)
      (rs : ℕ → PhotoRecord),
      pid ≠ "" →
      files.get? i = some fi →
      (∀ j, j < i → ∃ fj, files.get? j = some fj ∧
        processFile env uid pid ld desc j fj = .ok (rs j)) →
      processFile env uid pid ld desc i fi = .error em →
      handleSubmit env uid files pid ld desc = ⟨(List.range i).map rs, some em⟩ := by
  intro env uid files pid ld desc i fi em rs hpid hget hpre herr
  have hne : files ≠ [] := by
    rintro rfl
    simp at hget
  rw [handleSubmit, if_neg (by simpa [List.isEmpty_iff] using hne), if_neg hpid]
  have h := runFiles_stop env uid pid ld desc rs i files 0 [] fi em hget
    (by simpa using hpre) (by simpa using herr)
  simpa using h

/-- Witness for C2, the spec's own scenario: a batch of three files
where the second file's storage upload fails; the first file's row is
persisted, the second and third are not, and the caller receives the
prefixed storage error message. -/
theorem C2_witness :
    handleSubmit envUploadFail1 (some "u1") [plainFile, plainFile, plainFile]
      "p1" "4F B區" "d" =
      ⟨[c2rec0], some "Error uploading file: bucket unavailable"⟩ := by
  have h := C2_batch_aborts_at_failure envUploadFail1 (some "u1")
    [plainFile, plainFile, plainFile] "p1" "4F B區" "d" 1 plainFile
    "Error uploading file: bucket unavailable" (fun _ => c2rec0)
    (by decide) rfl
    (by
      intro j hj
      have hj0 : j = 0 := Nat.lt_one_iff.mp hj
      subst hj0
      exact ⟨plainFile, rfl, by with_unfolding_all rfl⟩)
    (by with_unfolding_all rfl)
  simpa using h

/-- A digit or dot character is not whitespace. -/
theorem digitDot_not_ws {c : Char} (h : c.isDigit = true ∨ c = '.') :
    c.isWhitespace = false := by
  rcases h with h | h
  · cases hw : c.isWhitespace
    · rfl
    · exfalso
      simp only [Char.isWhitespace, Bool.or_eq_true, decide_eq_true_eq] at hw
      rcases hw with ((h1 | h1) | h1) | h1 <;> subst h1 <;> simp at h
  · subst h
    rfl

/-- A digit or dot character differs from any concrete non-digit,
non-dot character. -/
theorem digitDot_ne {c x : Char} (h : c.isDigit = true ∨ c = '.')
    (hx : x.isDigit = false) (hdot : ¬ x = '.') : ¬ c = x := by
  rintro rfl
  rcases h with h | h
  · rw [h] at hx
    exact absurd hx (by simp)
  · exact hdot h

/-- `takeWhile` over an appended block whose first character fails the
predicate stops no later than the junction. -/
theorem takeWhile_append_head_false (p : Char → Bool) (l : List Char) (d : Char)
    (ds : List Char) (hd : p d = false) :
    (l ++ d :: ds).takeWhile p = l.takeWhile p := by
  induction l with
  | nil => simp [List.takeWhile_cons, hd]
  | cons a t ih =>
    cases ha : p a
    · simp [List.takeWhile_cons, ha]
    · simp [List.takeWhile_cons, ha, ih]

/-- `dropWhile` over an appended block whose first character fails the
predicate keeps the whole suffix. -/
theorem dropWhile_append_head_false (p : Char → Bool) (l : List Char) (d : Char)
    (ds : List Char) (hd : p d = false) :
    (l ++ d :: ds).dropWhile p = l.dropWhile p ++ d :: ds := by
  induction l with
  | nil => simp [List.dropWhile_cons, hd]
  | cons a t ih =>
    cases ha : p a
    · simp [List.dropWhile_cons, ha]
    · simp [List.dropWhile_cons, ha, ih]

/-- The head of a nonempty `dropWhile` result fails the predicate. -/
theorem dropWhile_head_false (p : Char → Bool) :
    ∀ (l : List Char) (c : Char) (t : List Char),
      l.dropWhile p = c :: t → p c = false := by
  intro l
  induction l with
  | nil =>
    intro c t h
    simp at h
  | cons a l' ih =>
    intro c t h
    cases ha : p a
    · rw [List.dropWhile_cons, if_neg (by simp [ha])] at h
      obtain ⟨rfl, rfl⟩ : a = c ∧ l' = t := by simpa using h
      exact ha
    · rw [List.dropWhile_cons, if_pos (by simp [ha])] at h
      exact ih c t h

/-- The empty exponent part leaves the mantissa unchanged. -/
theorem applyExp_nil (m : ℚ) : applyExp m [] = m := rfl

/-- A remainder not starting with `e`/`E` contributes no exponent. -/
theorem applyExp_no_e {m : ℚ} {c : Char} {rest : List Char}
    (h1 : ¬ c = 'e') (h2 : ¬ c = 'E') : applyExp m (c :: rest) = m := by
  simp [applyExp, h1, h2]

/-- A list whose `take 8` spells `Infinity` starts with `I`. -/
theorem take8_head {c : Char} {rest : List Char}
    (h : (c :: rest).take 8 = ['I', 'n', 'f', 'i', 'n', 'i', 't', 'y']) : c = 'I' := by
  simp [List.take_succ_cons] at h
  exact h.1

/-- On a list headed by a digit or a dot, `parseFloat` skips no
whitespace and consumes no sign, going straight to the unsigned
literal. -/
theorem parseFloatL_eq_parseUnsigned (c0 : Char) (t0 : List Char)
    (h : c0.isDigit = true ∨ c0 = '.') :
    parseFloatL (c0 :: t0) = parseUnsigned (c0 :: t0) := by
  unfold parseFloatL
  rw [List.dropWhile_cons, if_neg (by simp [digitDot_not_ws h])]
  simp only [parseSigned]
  rw [if_neg (digitDot_ne h (by decide) (by decide)),
    if_neg (digitDot_ne h (by decide) (by decide))]

/-- Appending the letters `deg` to a nonempty digits-and-dots token does
not change what the unsigned-literal parser reads off its front. -/
theorem parseUnsigned_append_deg :
    ∀ (l : List Char), (∀ c ∈ l, c.isDigit = true ∨ c = '.') → l ≠ [] →
      ∀ q : ℚ, parseUnsigned l = .fin q →
        parseUnsigned (l ++ ['d', 'e', 'g']) = .fin q := by
  intro l hl hne q h
  obtain ⟨c0, t0, rfl⟩ : ∃ c0 t0, l = c0 :: t0 := by
    cases l with
    | nil => exact absurd rfl hne
    | cons a b => exact ⟨a, b, rfl⟩
  have hc0 := hl c0 (by simp)
  have hinf1 : ¬ (c0 :: t0).take 8 = ['I', 'n', 'f', 'i', 'n', 'i', 't', 'y'] :=
    fun hx => digitDot_ne hc0 (by decide) (by decide) (take8_head hx)
  have hinf2 : ¬ ((c0 :: t0) ++ ['d', 'e', 'g']).take 8 =
      ['I', 'n', 'f', 'i', 'n', 'i', 't', 'y'] := by
    intro hx
    rw [List.cons_append] at hx
    exact digitDot_ne hc0 (by decide) (by decide) (take8_head hx)
  have htake : ((c0 :: t0) ++ ['d', 'e', 'g']).takeWhile Char.isDigit =
      (c0 :: t0).takeWhile Char.isDigit :=
    takeWhile_append_head_false _ _ _ _ (by decide)
  have hdrop : ((c0 :: t0) ++ ['d', 'e', 'g']).dropWhile Char.isDigit =
      (c0 :: t0).dropWhile Char.isDigit ++ ['d', 'e', 'g'] :=
    dropWhile_append_head_false _ _ _ _ (by decide)
  unfold parseUnsigned at h ⊢
  rw [if_neg hinf1] at h
  rw [if_neg hinf2, htake, hdrop]
  cases hr1 : (c0 :: t0).dropWhile Char.isDigit with
  | nil =>
    rw [hr1] at h
    simp only [List.nil_append]
    have h' : (if (c0 :: t0).takeWhile Char.isDigit = [] then JSNum.nan
        else .fin (applyExp (digitsVal ((c0 :: t0).takeWhile Char.isDigit) : ℚ) [])) =
        .fin q := h
    show (if (c0 :: t0).takeWhile Char.isDigit = [] then JSNum.nan
        else .fin (applyExp (digitsVal ((c0 :: t0).takeWhile Char.isDigit) : ℚ)
          ['d', 'e', 'g'])) = .fin q
    by_cases hd1 : (c0 :: t0).takeWhile Char.isDigit = []
    · rw [if_pos hd1] at h'
      exact absurd h' (by simp)
    · rw [if_neg hd1] at h'
      rw [if_neg hd1, applyExp_no_e (by decide) (by decide)]
      rw [applyExp_nil] at h'
      exact h'
  | cons c1 r2 =>
    have hc1mem : c1 ∈ c0 :: t0 := by
      have hs : List.Sublist ((c0 :: t0).dropWhile Char.isDigit) (c0 :: t0) :=
        List.dropWhile_sublist _
      rw [hr1] at hs
      exact hs.subset (by simp)
    have hc1digit : c1.isDigit = false := dropWhile_head_false _ _ _ _ hr1
    have hc1 : c1 = '.' := by
      rcases hl c1 hc1mem with hx | hx
      · rw [hx] at hc1digit
        exact absurd hc1digit (by simp)
      · exact hx
    subst hc1
    rw [hr1] at h
    have hr2sub : List.Sublist r2 (c0 :: t0) := by
      have hs : List.Sublist ((c0 :: t0).dropWhile Char.isDigit) (c0 :: t0) :=
        List.dropWhile_sublist _
      rw [hr1] at hs
      exact (List.sublist_cons_self '.' r2).trans hs
    rw [List.cons_append]
    have htake2 : (r2 ++ ['d', 'e', 'g']).takeWhile Char.isDigit =
        r2.takeWhile Char.isDigit :=
      takeWhile_append_head_false _ _ _ _ (by decide)
    have hdrop2 : (r2 ++ ['d', 'e', 'g']).dropWhile Char.isDigit =
        r2.dropWhile Char.isDigit ++ ['d', 'e', 'g'] :=
      dropWhile_append_head_false _ _ _ _ (by decide)
    have h' : (if (c0 :: t0).takeWhile Char.isDigit = [] ∧
          r2.takeWhile Char.isDigit = [] then JSNum.nan
        else .fin (applyExp ((digitsVal ((c0 :: t0).takeWhile Char.isDigit) : ℚ) +
          (digitsVal (r2.takeWhile Char.isDigit) : ℚ) /
            10 ^ (r2.takeWhile Char.isDigit).length)
          (r2.dropWhile Char.isDigit))) = .fin q := h
    show (if (c0 :: t0).takeWhile Char.isDigit = [] ∧
          (r2 ++ ['d', 'e', 'g']).takeWhile Char.isDigit = [] then JSNum.nan
        else .fin (applyExp ((digitsVal ((c0 :: t0).takeWhile Char.isDigit) : ℚ) +
          (digitsVal ((r2 ++ ['d', 'e', 'g']).takeWhile Char.isDigit) : ℚ) /
            10 ^ ((r2 ++ ['d', 'e', 'g']).takeWhile Char.isDigit).length)
          ((r2 ++ ['d', 'e', 'g']).dropWhile Char.isDigit))) = .fin q
    rw [htake2, hdrop2]
    by_cases hnan : (c0 :: t0).takeWhile Char.isDigit = [] ∧ r2.takeWhile Char.isDigit = []
    · rw [if_pos hnan] at h'
      exact absurd h' (by simp)
    · rw [if_neg hnan] at h'
      rw [if_neg hnan]
      cases hr3 : r2.dropWhile Char.isDigit with
      | nil =>
        rw [hr3] at h'
        rw [List.nil_append, applyExp_no_e (by decide) (by decide)]
        rw [applyExp_nil] at h'
        exact h'
      | cons c2 r4 =>
        have hc2mem : c2 ∈ c0 :: t0 := by
          have hs : List.Sublist (r2.dropWhile Char.isDigit) r2 :=
            List.dropWhile_sublist _
          rw [hr3] at hs
          exact hr2sub.subset (hs.subset (by simp))
        have hc2digit : c2.isDigit = false := dropWhile_head_false _ _ _ _ hr3
        have hc2 : c2 = '.' := by
          rcases hl c2 hc2mem with hx | hx
          · rw [hx] at hc2digit
            exact absurd hc2digit (by simp)
          · exact hx
        subst hc2
        rw [hr3] at h'
        rw [List.cons_append, applyExp_no_e (by decide) (by decide)]
        rw [applyExp_no_e (by decide) (by decide)] at h'
        exact h'

/-- Appending the unit marker `deg` to a numeric token leaves its
`parseFloat` value unchanged: `parseFloat` stops at the first letter. -/
theorem parseFloatJS_append_deg (td : String)
    (hl : ∀ c ∈ td.data, c.isDigit = true ∨ c = '.') (hne : td.data ≠ [])
    (q : ℚ) (h : parseFloatJS td = .fin q) :
    parseFloatJS (td ++ "deg") = .fin q := by
  obtain ⟨c0, t0, hcons⟩ : ∃ c0 t0, td.data = c0 :: t0 := by
    cases hd : td.data with
    | nil => exact absurd hd hne
    | cons a b => exact ⟨a, b, rfl⟩
  have hc0 : c0.isDigit = true ∨ c0 = '.' := hl c0 (by rw [hcons]; simp)
  have hdata : (td ++ "deg").data = td.data ++ ['d', 'e', 'g'] := by
    cases td
    rfl
  unfold parseFloatJS at h ⊢
  rw [hdata, hcons, List.cons_append,
    parseFloatL_eq_parseUnsigned c0 (t0 ++ ['d', 'e', 'g']) hc0, ← List.cons_append]
  refine parseUnsigned_append_deg (c0 :: t0) ?_ (by simp) q ?_
  · intro c hc
    exact hl c (by rw [hcons]; exact hc)
  · rw [← parseFloatL_eq_parseUnsigned c0 t0 hc0, ← hcons]
    exact h

/-- Folding a nonempty run of token-class characters extends the current
piece and leaves the separator flag cleared. -/
theorem foldr_splitStep_class :
    ∀ (p : List Char) (b : Bool) (q : List Char) (ps : List (List Char)),
      (∀ c ∈ p, isTokenChar c = true) → p ≠ [] →
      p.foldr splitStep (b, q :: ps) = (false, (p ++ q) :: ps) := by
  intro p
  induction p with
  | nil =>
    intro b q ps _ hne
    exact absurd rfl hne
  | cons c p' ih =>
    intro b q ps hp hne
    cases p' with
    | nil =>
      simp [splitStep, hp c (by simp)]
    | cons d p'' =>
      rw [List.foldr_cons, ih b q ps (fun x hx => hp x (by simp [hx])) (by simp)]
      simp [splitStep, hp c (by simp)]

/-- Folding a nonempty run of separator characters opens exactly one new
piece and sets the separator flag. -/
theorem foldr_splitStep_sep :
    ∀ (p : List Char) (q : List Char) (ps : List (List Char)),
      (∀ c ∈ p, isTokenChar c = false) → p ≠ [] →
      p.foldr splitStep (false, q :: ps) = (true, [] :: q :: ps) := by
  intro p
  induction p with
  | nil =>
    intro q ps _ hne
    exact absurd rfl hne
  | cons c p' ih =>
    intro q ps hp hne
    cases p' with
    | nil =>
      simp [splitStep, hp c (by simp)]
    | cons d p'' =>
      rw [List.foldr_cons, ih q ps (fun x hx => hp x (by simp [hx])) (by simp)]
      simp [splitStep, hp c (by simp)]

/-- The split fold on four token runs separated by three separator runs
produces exactly the four tokens. -/
theorem foldr_splitStep_four (t1 s1 t2 s2 t3 s3 t4 : List Char)
    (h1 : ∀ c ∈ t1, isTokenChar c = true) (h1n : t1 ≠ [])
    (h2 : ∀ c ∈ t2, isTokenChar c = true) (h2n : t2 ≠ [])
    (h3 : ∀ c ∈ t3, isTokenChar c = true) (h3n : t3 ≠ [])
    (h4 : ∀ c ∈ t4, isTokenChar c = true) (h4n : t4 ≠ [])
    (g1 : ∀ c ∈ s1, isTokenChar c = false) (g1n : s1 ≠ [])
    (g2 : ∀ c ∈ s2, isTokenChar c = false) (g2n : s2 ≠ [])
    (g3 : ∀ c ∈ s3, isTokenChar c = false) (g3n : s3 ≠ []) :
    (t1 ++ s1 ++ t2 ++ s2 ++ t3 ++ s3 ++ t4).foldr splitStep (false, [[]]) =
      (false, [t1, t2, t3, t4]) := by
  have e4 : t4.foldr splitStep (false, [[]]) = (false, [t4]) := by
    have := foldr_splitStep_class t4 false [] [] h4 h4n
    simpa using this
  have e3s : s3.foldr splitStep (false, [t4]) = (true, [[], t4]) :=
    foldr_splitStep_sep s3 t4 [] g3 g3n
  have e3 : t3.foldr splitStep (true, [[], t4]) = (false, [t3, t4]) := by
    have := foldr_splitStep_class t3 true [] [t4] h3 h3n
    simpa using this
  have e2s : s2.foldr splitStep (false, [t3, t4]) = (true, [[], t3, t4]) :=
    foldr_splitStep_sep s2 t3 [t4] g2 g2n
  have e2 : t2.foldr splitStep (true, [[], t3, t4]) = (false, [t2, t3, t4]) := by
    have := foldr_splitStep_class t2 true [] [t3, t4] h2 h2n
    simpa using this
  have e1s : s1.foldr splitStep (false, [t2, t3, t4]) = (true, [[], t2, t3, t4]) :=
    foldr_splitStep_sep s1 t2 [t3, t4] g1 g1n
  have e1 : t1.foldr splitStep (true, [[], t2, t3, t4]) = (false, [t1, t2, t3, t4]) := by
    have := foldr_splitStep_class t1 true [] [t2, t3, t4] h1 h1n
    simpa using this
  rw [List.foldr_append, List.foldr_append, List.foldr_append, List.foldr_append,
    List.foldr_append, List.foldr_append, e4, e3s, e3, e2s, e2, e1s, e1]

/-- `jsSplit` of four token runs joined by separator runs, at string
level. -/
theorem jsSplit_four (t1 s1 t2 s2 t3 s3 t4 : String)
    (h1 : ∀ c ∈ t1.data, isTokenChar c = true) (h1n : t1.data ≠ [])
    (h2 : ∀ c ∈ t2.data, isTokenChar c = true) (h2n : t2.data ≠ [])
    (h3 : ∀ c ∈ t3.data, isTokenChar c = true) (h3n : t3.data ≠ [])
    (h4 : ∀ c ∈ t4.data, isTokenChar c = true) (h4n : t4.data ≠ [])
    (g1 : ∀ c ∈ s1.data, isTokenChar c = false) (g1n : s1.data ≠ [])
    (g2 : ∀ c ∈ s2.data, isTokenChar c = false) (g2n : s2.data ≠ [])
    (g3 : ∀ c ∈ s3.data, isTokenChar c = false) (g3n : s3.data ≠ []) :
    jsSplit (t1 ++ s1 ++ t2 ++ s2 ++ t3 ++ s3 ++ t4) = [t1, t2, t3, t4] := by
  unfold jsSplit
  have hdata : (t1 ++ s1 ++ t2 ++ s2 ++ t3 ++ s3 ++ t4).data =
      t1.data ++ s1.data ++ t2.data ++ s2.data ++ t3.data ++ s3.data ++ t4.data := by
    cases t1
    cases s1
    cases t2
    cases s2
    cases t3
    cases s3
    cases t4
    rfl
  rw [hdata, foldr_splitStep_four t1.data s1.data t2.data s2.data t3.data s3.data t4.data
    h1 h1n h2 h2n h3 h3n h4 h4n g1 g1n g2 g2n g3 g3n]
  rfl

/-- Unfolding of `convertDMSToDecimal` with its shared subterms written
out. -/
theorem convertDMSToDecimal_eq (d : String) :
    convertDMSToDecimal d =
      some (if (jsSplit d).get? 3 = some "S" ∨ (jsSplit d).get? 3 = some "W" then
        (((parseFloatOpt ((jsSplit d).get? 0)).add
            ((parseFloatOpt ((jsSplit d).get? 1)).divPos 60)).add
          ((parseFloatOpt ((jsSplit d).get? 2)).divPos 3600)).neg
      else
        ((parseFloatOpt ((jsSplit d).get? 0)).add
            ((parseFloatOpt ((jsSplit d).get? 1)).divPos 60)).add
          ((parseFloatOpt ((jsSplit d).get? 2)).divPos 3600)) := rfl

/-- Claim C5.  On every well-formed sexagesimal string — a numeric
degrees token (digits and dots) directly followed by the unit marker
`deg` as in the code's own example `"51deg 30' 35.66\" N"`, then a
minutes token, a seconds token and a hemisphere letter, joined by
arbitrary nonempty separator runs — `convertDMSToDecimal` returns
`D + M/60 + S/3600`, negated exactly for hemisphere `S` or `W`. -/
theorem C5_wellformed_dms_converts :
    ∀ (td tm ts sep1 sep2 sep3 hem : String) (qd qm qs : ℚ),
      (∀ c ∈ td.data, c.isDigit = true ∨ c = '.') → td.data ≠ [] →
      (∀ c ∈ tm.data, c.isDigit = true ∨ c = '.') → tm.data ≠ [] →
      (∀ c ∈ ts.data, c.isDigit = true ∨ c = '.') → ts.data ≠ [] →
      (∀ c ∈ sep1.data, isTokenChar c = false) → sep1.data ≠ [] →
      (∀ c ∈ sep2.data, isTokenChar c = false) → sep2.data ≠ [] →
      (∀ c ∈ sep3.data, isTokenChar c = false) → sep3.data ≠ [] →
      parseFloatJS td = .fin qd → parseFloatJS tm = .fin qm →
      parseFloatJS ts = .fin qs →
      (hem = "N" ∨ hem = "S" ∨ hem = "E" ∨ hem = "W") →
      convertDMSToDecimal (td ++ "deg" ++ sep1 ++ tm ++ sep2 ++ ts ++ sep3 ++ hem) =
        some (.fin (if hem = "S" ∨ hem = "W" then -(qd + qm / 60 + qs / 3600)
          else qd + qm / 60 + qs / 3600)) := by
  intro td tm ts sep1 sep2 sep3 hem qd qm qs hld hnd hlm hnm hls hns
    g1 g1n g2 g2n g3 g3n hpd hpm hps hhem
  have token_of_dd : ∀ c : Char, c.isDigit = true ∨ c = '.' → isTokenChar c = true := by
    intro c h
    rcases h with h | h
    · simp [isTokenChar, h]
    · subst h
      rfl
  have hdegdata : (td ++ "deg").data = td.data ++ ['d', 'e', 'g'] := by
    cases td
    rfl
  have h1 : ∀ c ∈ (td ++ "deg").data, isTokenChar c = true := by
    intro c hc
    rw [hdegdata] at hc
    rcases List.mem_append.mp hc with hc | hc
    · exact token_of_dd c (hld c hc)
    · rcases (by simpa using hc : c = 'd' ∨ c = 'e' ∨ c = 'g') with rfl | rfl | rfl <;>
        decide
  have h1n : (td ++ "deg").data ≠ [] := by
    rw [hdegdata]
    simp
  have h2 : ∀ c ∈ tm.data, isTokenChar c = true := fun c hc => token_of_dd c (hlm c hc)
  have h3 : ∀ c ∈ ts.data, isTokenChar c = true := fun c hc => token_of_dd c (hls c hc)
  have h4 : ∀ c ∈ hem.data, isTokenChar c = true := by
    rcases hhem with rfl | rfl | rfl | rfl <;> decide
  have h4n : hem.data ≠ [] := by
    rcases hhem with rfl | rfl | rfl | rfl <;> decide
  have hsplit := jsSplit_four (td ++ "deg") sep1 tm sep2 ts sep3 hem
    h1 h1n h2 hnm h3 hns h4 h4n g1 g1n g2 g2n g3 g3n
  rw [convertDMSToDecimal_eq, hsplit]
  have hg0 : parseFloatOpt (([td ++ "deg", tm, ts, hem] : List String).get? 0) = .fin qd := by
    show parseFloatJS (td ++ "deg") = JSNum.fin qd
    exact parseFloatJS_append_deg td hld hnd qd hpd
  have hg1 : parseFloatOpt (([td ++ "deg", tm, ts, hem] : List String).get? 1) = .fin qm := hpm
  have hg2 : parseFloatOpt (([td ++ "deg", tm, ts, hem] : List String).get? 2) = .fin qs := hps
  have hdir : ([td ++ "deg", tm, ts, hem] : List String).get? 3 = some hem := rfl
  rw [hg0, hg1, hg2, hdir]
  rcases hhem with rfl | rfl | rfl | rfl
  · rw [if_neg (by decide), if_neg (by decide)]
    rfl
  · rw [if_pos (by decide), if_pos (by decide)]
    rfl
  · rw [if_neg (by decide), if_neg (by decide)]
    rfl
  · rw [if_pos (by decide), if_pos (by decide)]
    rfl

/-- Witness for C5 at the code's documented example string. -/
theorem C5_witness :
    convertDMSToDecimal "51deg 30' 35.66\" N" =
      some (.fin (51 + 30 / 60 + (35 + 66 / 100) / 3600)) := by
  have h := C5_wellformed_dms_converts "51" "30" "35.66" " " "' " "\" " "N"
    51 30 (35 + 66 / 100)
    (by decide) (by decide) (by decide) (by decide) (by decide) (by decide)
    (by decide) (by decide) (by decide) (by decide) (by decide) (by decide)
    (by with_unfolding_all rfl) (by with_unfolding_all rfl)
    (by with_unfolding_all rfl) (Or.inl rfl)
  rw [if_neg (by decide)] at h
  exact h
